import Mathlib

/-
Verification development for the pdf-payroll-extractor core
(src/core/pdf_extractor.py and src/core/data_processor.py).

Text is modelled as List Char, file bytes as List Nat, and Python
floats as exact rationals. Regular-expression search is modelled by a
small backtracking engine whose alternative order mirrors the Python
re module: leftmost match start first, greedy quantifiers try longest
first, lazy quantifiers shortest first, sequencing backtracks through
the left component before the right.
-/

namespace LiquidaPro

/-- Whitespace class, modelling the regex class backslash-s and the
characters stripped by the Python str.strip method (ASCII range). -/
def isWsChar (c : Char) : Bool :=
  c == ' ' || c == '\t' || c == '\n' || c == '\r' || c == '\x0b' || c == '\x0c'

/-- Python str.strip with no arguments: drop whitespace from both ends. -/
def pyStrip (l : List Char) : List Char :=
  ((l.dropWhile isWsChar).reverse.dropWhile isWsChar).reverse

/-- Python str.upper, modelled on the ASCII range. -/
def pyUpper (l : List Char) : List Char :=
  l.map Char.toUpper

/-- Character class of the regex dot without DOTALL: any character except
a newline. -/
def notNewline (c : Char) : Bool := c != '\n'

/-- Character class for the bracket class of digits and a literal dot. -/
def digitOrDot (c : Char) : Bool := c.isDigit || c == '.'

/-- Character class for the bracket class of digits and a slash. -/
def digitOrSlash (c : Char) : Bool := c.isDigit || c == '/'

/-- Abstract syntax of the fixed regular expressions used by the source:
literals, single-character classes, greedy and lazy star and plus over a
character class, capture groups, sequencing, and the MULTILINE end
anchor. -/
inductive RE where
  | lit : List Char → RE
  | one : (Char → Bool) → RE
  | starG : (Char → Bool) → RE
  | starL : (Char → Bool) → RE
  | plusG : (Char → Bool) → RE
  | plusL : (Char → Bool) → RE
  | grp : RE → RE
  | seq : RE → RE → RE
  | eol : RE

/-- Sequence a list of regex parts left to right. -/
def cat (rs : List RE) : RE :=
  rs.foldr RE.seq (RE.lit [])

/-- Length of the maximal run of characters satisfying a class at the
head of the input. -/
def maxRun (p : Char → Bool) : List Char → Nat
  | [] => 0
  | c :: rest => if p c then maxRun p rest + 1 else 0

/-- Backtracking matcher in continuation-passing style. The continuation
receives the captured groups (in order of opening parenthesis) and the
remaining input after the match. Alternatives are tried in the priority
order of the Python re module, and the first success wins. -/
def reMatch : RE → List Char → (List (List Char) → List Char → Option α) → Option α
  | .lit l, s, k => if l.isPrefixOf s then k [] (s.drop l.length) else none
  | .one p, s, k =>
    match s with
    | [] => none
    | c :: rest => if p c then k [] rest else none
  | .starG p, s, k =>
    ((List.range (maxRun p s + 1)).reverse).findSome? (fun n => k [] (s.drop n))
  | .starL p, s, k =>
    (List.range (maxRun p s + 1)).findSome? (fun n => k [] (s.drop n))
  | .plusG p, s, k =>
    ((List.range (maxRun p s)).reverse).findSome? (fun i => k [] (s.drop (i + 1)))
  | .plusL p, s, k =>
    (List.range (maxRun p s)).findSome? (fun i => k [] (s.drop (i + 1)))
  | .grp r, s, k =>
    reMatch r s (fun gs rest => k (gs ++ [s.take (s.length - rest.length)]) rest)
  | .seq r1 r2, s, k =>
    reMatch r1 s (fun g1 rest => reMatch r2 rest (fun g2 rest2 => k (g1 ++ g2) rest2))
  | .eol, s, k =>
    match s with
    | [] => k [] []
    | c :: rest => if c = '\n' then k [] (c :: rest) else none

/-- Python re.search: try every start position from the left and return
the groups of the first (leftmost) match. -/
def reSearchGroups (r : RE) (s : List Char) : Option (List (List Char)) :=
  (List.range (s.length + 1)).findSome? (fun p => reMatch r (s.drop p) (fun gs _ => some gs))

/-- Leftmost match returning both the captured groups and the input
remaining after the end of the match, as needed for finditer. -/
def reSearchWithRest (r : RE) (s : List Char) : Option (List (List Char) × List Char) :=
  (List.range (s.length + 1)).findSome?
    (fun p => reMatch r (s.drop p) (fun gs rest => some (gs, rest)))

/-- Python re.finditer: repeatedly take the leftmost match and continue
searching after its end. The patterns used in the source always consume
at least one character, so fuel equal to the input length suffices. -/
def reFindIter : Nat → RE → List Char → List (List (List Char))
  | 0, _, _ => []
  | fuel + 1, r, s =>
    match reSearchWithRest r s with
    | none => []
    | some (gs, rest) =>
      gs :: (if rest.length < s.length then reFindIter fuel r rest else [])

/- ── The compiled patterns of PDFExtractor, one definition per RE_
constant of the source. ── -/

/-- RE_NOMBRE of the source. -/
def reNombre : RE :=
  cat [.lit ("Apellido y Nombre".toList), .starG isWsChar, .lit [':'],
       .starG isWsChar, .grp (.plusL notNewline), .starG isWsChar,
       .lit ("Centro Pago".toList)]

/-- RE_ID_HR of the source. -/
def reIdHr : RE :=
  cat [.lit ("Id.".toList), .starG isWsChar, .lit ("Hr:".toList),
       .starG isWsChar, .grp (.plusG Char.isDigit)]

/-- RE_CARGO of the source. -/
def reCargo : RE :=
  cat [.lit ("Cargo:".toList), .starG isWsChar, .grp (.plusG Char.isDigit)]

/-- RE_ROL of the source. -/
def reRol : RE :=
  cat [.lit ("Rol:".toList), .starG isWsChar, .grp (.plusG Char.isDigit)]

/-- RE_DIAS of the source. -/
def reDias : RE :=
  cat [.lit ("Dias Trab:".toList), .starG isWsChar, .grp (.plusG Char.isDigit)]

/-- RE_FECHA_ALTA of the source. -/
def reFechaAlta : RE :=
  cat [.lit ("Fecha Alta:".toList), .starG isWsChar, .grp (.plusG digitOrSlash)]

/-- The capture group shared by every monetary pattern: a run of digits
and dots, a comma, and exactly two digits. -/
def amountGroup : RE :=
  .grp (cat [.plusG digitOrDot, .lit [','], .one Char.isDigit, .one Char.isDigit])

/-- RE_REM_CON_APORTE of the source. -/
def reRemConAporte : RE :=
  cat [.lit ("Rem c/ Aporte".toList), .plusG isWsChar, amountGroup]

/-- RE_REM_SIN_APORTE of the source. -/
def reRemSinAporte : RE :=
  cat [.lit ("Rem s/ Aporte".toList), .plusG isWsChar, amountGroup]

/-- RE_LIQUIDO of the source. -/
def reLiquido : RE :=
  cat [.lit ("Liq.".toList), .starG isWsChar, .lit ("Pesos:".toList),
       .starG isWsChar, amountGroup]

/-- RE_COMPLEMENTO of the source. -/
def reComplemento : RE :=
  cat [.lit ("Complemento Remunerativo".toList), .plusG isWsChar, amountGroup]

/-- RE_AJUSTE_APROSS of the source. -/
def reAjusteApross : RE :=
  cat [.lit ("Ajuste Dif".toList), .starL notNewline, .lit ("APROSS".toList),
       .plusG isWsChar, amountGroup]

/-- RE_DESC_APROSS of the source. -/
def reDescApross : RE :=
  cat [.lit ("Descuento APROSS".toList), .starL notNewline, .lit ("Voluntar".toList),
       .plusG isWsChar, amountGroup]

/-- RE_CONCEPTO_DV of the source (MULTILINE end anchor). -/
def reConceptoDV : RE :=
  cat [.lit ("DV".toList), .plusG isWsChar, .grp (.plusG Char.isDigit),
       .plusG isWsChar, .grp (.plusL notNewline), .plusG isWsChar,
       amountGroup, .starG isWsChar, .eol]

/-- RE_CONCEPTO_RT of the source (MULTILINE end anchor). -/
def reConceptoRT : RE :=
  cat [.lit ("RT".toList), .plusG isWsChar, .grp (.plusG Char.isDigit),
       .plusG isWsChar, .grp (.plusL notNewline), .plusG isWsChar,
       amountGroup, .starG isWsChar, .eol]

/- ── Numeric normalizer: PDFExtractor._parse_ar_number ── -/

/-- Numeric value of a digit string. -/
def digitsVal (ds : List Char) : Nat :=
  ds.foldl (fun a c => a * 10 + (c.toNat - 48)) 0

/-- Exponent tail of a float literal: digits after the exponent marker
and optional sign, which must exhaust the input. -/
def parseExpDigits (sgn : ℤ) (r : List Char) : Option ℤ :=
  let ds := r.takeWhile Char.isDigit
  if ds = [] then none
  else if r.dropWhile Char.isDigit ≠ [] then none
  else some (sgn * (digitsVal ds : ℤ))

/-- Optional sign of the exponent of a float literal. -/
def parseSignedExp : List Char → Option ℤ
  | '+' :: r2 => parseExpDigits 1 r2
  | '-' :: r2 => parseExpDigits (-1) r2
  | r2 => parseExpDigits 1 r2

/-- Optional exponent part of a float literal; an empty rest means the
literal ends here with exponent zero. -/
def parseExpPart : List Char → Option ℤ
  | [] => some 0
  | 'e' :: r => parseSignedExp r
  | 'E' :: r => parseSignedExp r
  | _ => none

/-- Exact value of a decoded float literal: a sign, the integer-part
and fractional-part digit values, the fractional digit count and a
decimal exponent. -/
def ratOfParts (sgn : ℤ) (ipv fpv fplen : ℕ) (e : ℤ) : ℚ :=
  if 0 ≤ e then
    Rat.divInt (sgn * (((ipv * 10 ^ fplen + fpv) * 10 ^ e.toNat : ℕ) : ℤ))
      ((10 ^ fplen : ℕ) : ℤ)
  else
    Rat.divInt (sgn * ((ipv * 10 ^ fplen + fpv : ℕ) : ℤ))
      (((10 ^ fplen * 10 ^ (-e).toNat : ℕ) : ℤ))

/-- Model of the Python float constructor on strings, restricted to the
finite decimal literals that can arise here: surrounding whitespace, an
optional sign, an integer part and optional fractional part (at least
one digit between them), and an optional decimal exponent. The special
forms inf, nan and digit-group underscores are not modelled; the
strings fed to the normalizer by the extractor contain only digits,
dots and commas. -/
def pyFloat? (s0 : List Char) : Option ℚ :=
  let s := pyStrip s0
  let sgned : ℤ × List Char :=
    match s with
    | '+' :: r => (1, r)
    | '-' :: r => (-1, r)
    | r => (1, r)
  let sgn := sgned.1
  let s1 := sgned.2
  let ip := s1.takeWhile Char.isDigit
  let r1 := s1.dropWhile Char.isDigit
  match r1 with
  | '.' :: r2 =>
    let fp := r2.takeWhile Char.isDigit
    let r3 := r2.dropWhile Char.isDigit
    if ip = [] ∧ fp = [] then none
    else (parseExpPart r3).map (ratOfParts sgn (digitsVal ip) (digitsVal fp) fp.length)
  | _ =>
    if ip = [] then none
    else (parseExpPart r1).map (ratOfParts sgn (digitsVal ip) 0 0)

/-- Cleaning step of _parse_ar_number: strip, remove every dot, then turn
every comma into a dot, in the order of the source. -/
def arClean (text : List Char) : List Char :=
  ((pyStrip text).filter (fun c => c ≠ '.')).map (fun c => if c = ',' then '.' else c)

/-- PDFExtractor._parse_ar_number: empty input gives zero, otherwise the
cleaned string is parsed as a float and any parse failure gives zero. -/
def parseArNumber (text : List Char) : ℚ :=
  if text = [] then 0
  else
    match pyFloat? (arClean text) with
    | some v => v
    | none => 0

/- ── Data model: RawEmployeeBlock, mirroring the dataclass of the
source field for field. The dataclass declares no pension contribution
attribute; see aporte_jub_ley11087? below. -/

/-- RawEmployeeBlock of the source: one employee and role occurrence
parsed from one text chunk. Itemized concept mappings are modelled as
insertion-ordered association lists, matching Python dict semantics. -/
structure RawEmployeeBlock where
  nombre : List Char
  id_hr : List Char
  cargo : List Char
  rol : List Char
  dias_trab : List Char
  fecha_alta : List Char
  rem_con_aporte : ℚ
  rem_sin_aporte : ℚ
  liquido : ℚ
  conceptos_dv : List (List Char × ℚ)
  conceptos_rt : List (List Char × ℚ)
  complemento_remunerativo : ℚ
  ajuste_apross : ℚ
  descuento_apross_familiar : ℚ
deriving DecidableEq

/-- The default RawEmployeeBlock, as built by calling the dataclass with
no arguments: empty strings, zero amounts, empty concept mappings. -/
def defaultBlock : RawEmployeeBlock :=
  ⟨[], [], [], [], [], [], 0, 0, 0, [], [], 0, 0, 0⟩

/-- Python dict assignment on an insertion-ordered association list:
an existing key keeps its position and its value is overwritten, a new
key is appended at the end. -/
def dictInsert (acc : List (List Char × ℚ)) (k : List Char) (v : ℚ) :
    List (List Char × ℚ) :=
  match acc with
  | [] => [(k, v)]
  | (k0, v0) :: rest =>
    if k0 = k then (k, v) :: rest else (k0, v0) :: dictInsert rest k v

/-- First capture group of a search result, or the empty string when
there was no match, matching the idiom of the source. -/
def grpStr (o : Option (List (List Char))) : List Char :=
  match o with
  | some gs => gs.headD []
  | none => []

/-- Monetary field idiom of the source: parse the first capture group of
a match through the numeric normalizer, defaulting to zero when the
pattern did not match. -/
def numOf (o : Option (List (List Char))) : ℚ :=
  match o with
  | some gs => parseArNumber (gs.headD [])
  | none => 0

/-- Build a concept mapping from the finditer matches of one of the
two concept patterns: the key concatenates the kind tag, the code and
the stripped description, and repeated keys overwrite. -/
def conceptosOf (tag : List Char) (ms : List (List (List Char))) :
    List (List Char × ℚ) :=
  ms.foldl
    (fun acc gs =>
      let code := gs.headD []
      let nm := pyStrip ((gs.drop 1).headD [])
      let amt := parseArNumber ((gs.drop 2).headD [])
      dictInsert acc (tag ++ [' '] ++ code ++ [' '] ++ nm) amt)
    []

/-- PDFExtractor._parse_block: a chunk with no match of the name pattern
yields no block; otherwise every field is extracted independently, with
empty-string or zero defaults on a missing match. -/
def parseBlock (raw : List Char) : Option RawEmployeeBlock :=
  match reSearchGroups reNombre raw with
  | none => none
  | some gs =>
    some
      { nombre := pyUpper (pyStrip (gs.headD []))
        id_hr := grpStr (reSearchGroups reIdHr raw)
        cargo := grpStr (reSearchGroups reCargo raw)
        rol := grpStr (reSearchGroups reRol raw)
        dias_trab := grpStr (reSearchGroups reDias raw)
        fecha_alta := grpStr (reSearchGroups reFechaAlta raw)
        rem_con_aporte := numOf (reSearchGroups reRemConAporte raw)
        rem_sin_aporte := numOf (reSearchGroups reRemSinAporte raw)
        liquido := numOf (reSearchGroups reLiquido raw)
        conceptos_dv :=
          conceptosOf ("DV".toList) (reFindIter (raw.length + 1) reConceptoDV raw)
        conceptos_rt :=
          conceptosOf ("RT".toList) (reFindIter (raw.length + 1) reConceptoRT raw)
        complemento_remunerativo := numOf (reSearchGroups reComplemento raw)
        ajuste_apross := numOf (reSearchGroups reAjusteApross raw)
        descuento_apross_familiar := numOf (reSearchGroups reDescApross raw) }

/- ── Block segmentation: re.split on a lookahead of the id label ── -/

/-- The lookahead pattern of the split in extract_blocks. -/
def reIdHrLabel : RE :=
  cat [.lit ("Id.".toList), .starG isWsChar, .lit ("Hr:".toList)]

/-- Whether the id label pattern matches at the head of the input. -/
def idHrAt (t : List Char) : Bool :=
  (reMatch reIdHrLabel t (fun _ _ => some ())).isSome

/-- All positions of the text where the id label pattern matches; these
are the zero-width split points of the lookahead split. -/
def matchPositions (s : List Char) : List Nat :=
  (List.range s.length).filter (fun i => idHrAt (s.drop i))

/-- Substring between two positions. -/
def takeBetween (s : List Char) (a b : Nat) : List Char :=
  (s.drop a).take (b - a)

/-- Pieces of the text between consecutive split points, starting at a
given offset. -/
def piecesFrom (s : List Char) (start : Nat) : List Nat → List (List Char)
  | [] => [s.drop start]
  | p :: ps => takeBetween s start p :: piecesFrom s p ps

/-- Python re.split with the zero-width lookahead of the id label: the
text is cut at every match position, the piece before the first match
(possibly empty) included. -/
def pySplitIdHr (s : List Char) : List (List Char) :=
  piecesFrom s 0 (matchPositions s)

/- ── extract_blocks ── -/

/-- Errors raised by extract_blocks, both ValueError in the source:
the no-text guard and the no-records guard carry distinct messages. -/
inductive ExtractError where
  | noTextLoaded
  | noRecordsFound
deriving DecidableEq

/-- The valid blocks produced by segmentation plus parsing. -/
def parsedBlocks (text : List Char) : List RawEmployeeBlock :=
  (pySplitIdHr text).filterMap parseBlock

/-- PDFExtractor.extract_blocks on the loaded text: empty loaded text
raises immediately; otherwise the text is split on the id label, each
chunk is parsed, chunks with no name are dropped, and an empty result
raises the no-records error. -/
def extractBlocks (text : List Char) : Except ExtractError (List RawEmployeeBlock) :=
  if text = [] then .error .noTextLoaded
  else if parsedBlocks text = [] then .error .noRecordsFound
  else .ok (parsedBlocks text)

instance {ε α : Type} [DecidableEq ε] [DecidableEq α] : DecidableEq (Except ε α) :=
  fun x y =>
    match x, y with
    | .ok a, .ok b =>
      if h : a = b then isTrue (by rw [h])
      else isFalse (by intro hh; cases hh; exact h rfl)
    | .ok _, .error _ => isFalse (by intro h; cases h)
    | .error _, .ok _ => isFalse (by intro h; cases h)
    | .error e, .error f =>
      if h : e = f then isTrue (by rw [h])
      else isFalse (by intro hh; cases hh; exact h rfl)

/- ── File loading: load_file and _read_as_text ── -/

/-- Errors of load_file: FileNotFoundError for a missing path, and the
ValueError raised when neither back-end produced usable text. -/
inductive LoadError where
  | inputNotFound
  | unreadableInput
deriving DecidableEq

/-- One decoding step of a strict UTF-8 decoder: one scalar value and
the remaining bytes, rejecting truncated, overlong and surrogate
forms. Models the utf-8 codec used by the source. -/
def utf8Cont (c : Nat) : Bool := decide (0x80 ≤ c) && decide (c ≤ 0xBF)

/-- Decode the first UTF-8 scalar of a byte list. -/
def utf8Step : List Nat → Option (Char × List Nat)
  | [] => none
  | b :: rest =>
    if b < 0x80 then some (Char.ofNat b, rest)
    else if b < 0xC2 then none
    else if b ≤ 0xDF then
      match rest with
      | c1 :: rest2 =>
        if utf8Cont c1 then
          some (Char.ofNat ((b - 0xC0) * 0x40 + (c1 - 0x80)), rest2)
        else none
      | [] => none
    else if b ≤ 0xEF then
      match rest with
      | c1 :: c2 :: rest3 =>
        if (if b = 0xE0 then decide (0xA0 ≤ c1) && decide (c1 ≤ 0xBF)
            else if b = 0xED then decide (0x80 ≤ c1) && decide (c1 ≤ 0x9F)
            else utf8Cont c1) && utf8Cont c2 then
          some (Char.ofNat ((b - 0xE0) * 0x1000 + (c1 - 0x80) * 0x40 + (c2 - 0x80)), rest3)
        else none
      | _ => none
    else if b ≤ 0xF4 then
      match rest with
      | c1 :: c2 :: c3 :: rest4 =>
        if (if b = 0xF0 then decide (0x90 ≤ c1) && decide (c1 ≤ 0xBF)
            else if b = 0xF4 then decide (0x80 ≤ c1) && decide (c1 ≤ 0x8F)
            else utf8Cont c1) && utf8Cont c2 && utf8Cont c3 then
          some (Char.ofNat ((b - 0xF0) * 0x40000 + (c1 - 0x80) * 0x1000 +
            (c2 - 0x80) * 0x40 + (c3 - 0x80)), rest4)
        else none
      | _ => none
    else none

/-- Fuelled loop of the UTF-8 decoder; every step consumes at least one
byte, so fuel equal to the byte count suffices. -/
def utf8DecodeFuel : Nat → List Nat → Option (List Char)
  | _, [] => some []
  | 0, _ :: _ => none
  | fuel + 1, l =>
    match utf8Step l with
    | none => none
    | some (c, rest) => (utf8DecodeFuel fuel rest).map (fun cs => c :: cs)

/-- The utf-8 codec: decode all bytes or fail. -/
def utf8Decode? (l : List Nat) : Option (List Char) :=
  utf8DecodeFuel l.length l

/-- The latin-1 codec: every byte decodes to the same code point, so
decoding never fails. -/
def latin1Decode? (l : List Nat) : Option (List Char) :=
  some (l.map (fun b => Char.ofNat (b % 256)))

/-- Code point assigned to a byte by the cp1252 codec: ASCII and the
upper range map to themselves, the 0x80 to 0x9F window maps through the
Windows-1252 table, and the five unassigned bytes fail. -/
def cp1252Map (b : Nat) : Option Nat :=
  if b < 0x80 then some b
  else if 0xA0 ≤ b ∧ b ≤ 0xFF then some b
  else
    match b with
    | 0x80 => some 0x20AC
    | 0x82 => some 0x201A
    | 0x83 => some 0x0192
    | 0x84 => some 0x201E
    | 0x85 => some 0x2026
    | 0x86 => some 0x2020
    | 0x87 => some 0x2021
    | 0x88 => some 0x02C6
    | 0x89 => some 0x2030
    | 0x8A => some 0x0160
    | 0x8B => some 0x2039
    | 0x8C => some 0x0152
    | 0x8E => some 0x017D
    | 0x91 => some 0x2018
    | 0x92 => some 0x2019
    | 0x93 => some 0x201C
    | 0x94 => some 0x201D
    | 0x95 => some 0x2022
    | 0x96 => some 0x2013
    | 0x97 => some 0x2014
    | 0x98 => some 0x02DC
    | 0x99 => some 0x2122
    | 0x9A => some 0x0161
    | 0x9B => some 0x203A
    | 0x9C => some 0x0153
    | 0x9E => some 0x017E
    | _ => none

/-- The cp1252 codec: decode all bytes or fail. -/
def cp1252Decode? : List Nat → Option (List Char)
  | [] => some []
  | b :: rest =>
    match cp1252Map b with
    | none => none
    | some code => (cp1252Decode? rest).map (fun cs => Char.ofNat code :: cs)

/-- Universal newline translation performed by reading a file in text
mode: a carriage return, alone or followed by a line feed, becomes a
single line feed. -/
def univNewlines : List Char → List Char
  | [] => []
  | '\r' :: '\n' :: rest => '\n' :: univNewlines rest
  | '\r' :: rest => '\n' :: univNewlines rest
  | c :: rest => c :: univNewlines rest

/-- True when the second text occurs contiguously inside the first,
modelling the Python in operator on strings. -/
def containsSub : List Char → List Char → Bool
  | [], sub => sub.isEmpty
  | c :: rest, sub => sub.isPrefixOf (c :: rest) || containsSub rest sub

/-- The acceptance check of _read_as_text: the decoded text must contain
the name header marker and one of the two liquidation markers. -/
def liquidacionMarkers (t : List Char) : Bool :=
  containsSub t ("Apellido y Nombre".toList) &&
    (containsSub t ("LIQUIDACION".toList) || containsSub t ("Liq.".toList))

/-- One attempt of the encoding loop of _read_as_text: decode the bytes
with one codec, translate newlines as the text-mode read does, and
accept only when the marker check passes. A decode failure and a failed
marker check both make the loop continue with the next encoding. -/
def tryEnc (dec : List Nat → Option (List Char)) (content : List Nat) :
    Option (List Char) :=
  match dec content with
  | none => none
  | some t =>
    let t2 := univNewlines t
    if liquidacionMarkers t2 then some t2 else none

/-- PDFExtractor._read_as_text: try utf-8, then latin-1, then cp1252 in
order, returning the first accepted decoding. -/
def readAsText (content : List Nat) : Option (List Char) :=
  match tryEnc utf8Decode? content with
  | some t => some t
  | none =>
    match tryEnc latin1Decode? content with
    | some t => some t
    | none => tryEnc cp1252Decode? content

/-- Magic-signature check of load_file: the first bytes spell the PDF
header. -/
def hasPdfMagic (content : List Nat) : Bool :=
  (("%PDF-".toList).map Char.toNat).isPrefixOf content

/-- Result of the paginated back-end chain for a given input, where the
two extraction libraries are an external collaborator modelled as an
oracle function: a missing or empty text counts as failure, matching
the truthiness test of the source. -/
def pdfGives (pdf : List Nat → Option (List Char)) (content : List Nat) :
    Option (List Char) :=
  match pdf content with
  | some t => if t = [] then none else some t
  | none => none

/-- PDFExtractor.load_file over an abstract file system: a missing file
fails first with the not-found error; a file with the PDF magic is given
to the paginated back-ends and their text, when non-empty, is returned;
otherwise the plain-text encodings are attempted, and if nothing is
accepted the unreadable-input error is raised. -/
def loadFile (pdf : List Nat → Option (List Char)) (fs : Option (List Nat)) :
    Except LoadError (List Char) :=
  match fs with
  | none => .error .inputNotFound
  | some content =>
    match (if hasPdfMagic content then pdfGives pdf content else none) with
    | some t => .ok t
    | none =>
      match readAsText content with
      | some t => if t = [] then .error .unreadableInput else .ok t
      | none => .error .unreadableInput

/- ── Consolidation: DataProcessor.consolidate ── -/

/-- The one runtime error relevant to consolidation: Python attribute
lookup failing on an object with no such attribute. -/
inductive PyError where
  | attributeError
deriving DecidableEq

/-- Python attribute lookup of aporte_jub_ley11087 on a
RawEmployeeBlock. The dataclass declares no such field, no code in the
repository ever assigns it, so the lookup always fails. -/
def RawEmployeeBlock.aporte_jub_ley11087? (_ : RawEmployeeBlock) : Option ℚ :=
  none

/-- Accumulator entry of consolidate: the five summed monetary fields
and the numerator and denominator of the weighted-average percentage. -/
structure AccumEntry where
  rem_con_aporte : ℚ
  liquido : ℚ
  complemento_remunerativo : ℚ
  ajuste_apross : ℚ
  descuento_apross_familiar : ℚ
  aporte_jub_total : ℚ
  rem_jub_total : ℚ
deriving DecidableEq

/-- The defaultdict initial entry: all zeroes. -/
def initEntry : AccumEntry := ⟨0, 0, 0, 0, 0, 0, 0⟩

/-- Lookup in the insertion-ordered accumulator, with the defaultdict
default for an unseen name. -/
def lookupD (acc : List (List Char × AccumEntry)) (k : List Char) : AccumEntry :=
  match acc.find? (fun p => p.1 == k) with
  | some p => p.2
  | none => initEntry

/-- Write back an entry, keeping first-seen insertion order of names. -/
def upsertAcc (acc : List (List Char × AccumEntry)) (k : List Char)
    (v : AccumEntry) : List (List Char × AccumEntry) :=
  match acc with
  | [] => [(k, v)]
  | (k0, v0) :: rest =>
    if k0 = k then (k, v) :: rest else (k0, v0) :: upsertAcc rest k v

/-- Loop body of consolidate for one block: the five monetary sums are
accumulated, then the pension contribution attribute is read; that
lookup fails, so the iteration raises before the conditional
weighted-average accumulation can ever run. -/
def consolidateStep (acc : List (List Char × AccumEntry)) (b : RawEmployeeBlock) :
    Except PyError (List (List Char × AccumEntry)) :=
  let e0 := lookupD acc b.nombre
  let e1 :=
    { e0 with
      rem_con_aporte := e0.rem_con_aporte + b.rem_con_aporte
      liquido := e0.liquido + b.liquido
      complemento_remunerativo :=
        e0.complemento_remunerativo + b.complemento_remunerativo
      ajuste_apross := e0.ajuste_apross + b.ajuste_apross
      descuento_apross_familiar :=
        e0.descuento_apross_familiar + b.descuento_apross_familiar }
  match b.aporte_jub_ley11087? with
  | none => .error .attributeError
  | some v =>
    let e2 :=
      if 0 < v ∧ 0 < b.rem_con_aporte then
        { e1 with
          aporte_jub_total := e1.aporte_jub_total + v
          rem_jub_total := e1.rem_jub_total + b.rem_con_aporte }
      else e1
    .ok (upsertAcc acc b.nombre e2)

/-- The accumulation loop of consolidate over all blocks. -/
def consolidateLoop (acc : List (List Char × AccumEntry)) :
    List RawEmployeeBlock → Except PyError (List (List Char × AccumEntry))
  | [] => .ok acc
  | b :: bs =>
    match consolidateStep acc b with
    | .error e => .error e
    | .ok acc2 => consolidateLoop acc2 bs

/-- Python round on a rational: nearest integer, ties to even. -/
def pyRound (q : ℚ) : ℤ :=
  let f := Rat.floor q
  let r := q - (f : ℚ)
  if r < 1 / 2 then f
  else if 1 / 2 < r then f + 1
  else if f % 2 = 0 then f else f + 1

/-- One consolidated output row, with the summed monetary fields and
the rounded weighted-average percentage. -/
structure ConsolidatedRow where
  nombre : List Char
  rem_con_aporte : ℚ
  liquido : ℚ
  complemento_remunerativo : ℚ
  ajuste_apross : ℚ
  descuento_apross_familiar : ℚ
  pct_jub_ley11087 : ℤ
deriving DecidableEq

/-- Build the output row of one name from the accumulator: sums are
copied and the percentage is the rounded ratio of the accumulated
numerator and denominator, zero when the denominator is zero. -/
def rowOf (acc : List (List Char × AccumEntry)) (n : List Char) : ConsolidatedRow :=
  let e := lookupD acc n
  { nombre := n
    rem_con_aporte := e.rem_con_aporte
    liquido := e.liquido
    complemento_remunerativo := e.complemento_remunerativo
    ajuste_apross := e.ajuste_apross
    descuento_apross_familiar := e.descuento_apross_familiar
    pct_jub_ley11087 :=
      if 0 < e.rem_jub_total then pyRound (e.aporte_jub_total / e.rem_jub_total * 100)
      else 0 }

/-- Strict lexicographic order on strings by code point, as used by the
Python sorted builtin on the accumulated names. -/
def strLt : List Char → List Char → Bool
  | [], [] => false
  | [], _ :: _ => true
  | _ :: _, [] => false
  | a :: as, b :: bs => if a < b then true else if b < a then false else strLt as bs

/-- Insertion step of an ascending insertion sort under strLt. -/
def insertStr (x : List Char) : List (List Char) → List (List Char)
  | [] => [x]
  | y :: ys => if strLt y x then y :: insertStr x ys else x :: y :: ys

/-- Ascending sort of the names, modelling the sorted builtin. -/
def sortStrs : List (List Char) → List (List Char)
  | [] => []
  | x :: xs => insertStr x (sortStrs xs)

/-- DataProcessor.consolidate: accumulate every block into the
per-name entries, order the names alphabetically or in first-seen
order according to the flag, and emit one row per name. A raised
AttributeError propagates out of the loop. -/
def consolidate (blocks : List RawEmployeeBlock) (sort_alpha : Bool) :
    Except PyError (List ConsolidatedRow) :=
  match consolidateLoop [] blocks with
  | .error e => .error e
  | .ok acc =>
    let names := acc.map Prod.fst
    let names2 := if sort_alpha then sortStrs names else names
    .ok (names2.map (rowOf acc))

/- ── Concrete inputs used by the theorems below ── -/

/-- A block as _parse_block would build it for the first role of the
percentage example: base 100 for PEREZ JUAN. -/
def perezBlock1 : RawEmployeeBlock :=
  { defaultBlock with nombre := "PEREZ JUAN".toList, rem_con_aporte := 100 }

/-- A second role block for the same employee with base 50. -/
def perezBlock2 : RawEmployeeBlock :=
  { defaultBlock with nombre := "PEREZ JUAN".toList, rem_con_aporte := 50 }

/-- A block for a second employee. -/
def gomezBlock : RawEmployeeBlock :=
  { defaultBlock with
    nombre := "GOMEZ ANA".toList
    rem_con_aporte := 2000
    liquido := 1800 }

/-- Bytes of a minimal plain-text payroll file: pure ASCII, so its
UTF-8 decoding succeeds, and it contains both required markers. -/
def demoMarkersBytes : List Nat :=
  ("Apellido y Nombre LIQUIDACION".toList).map Char.toNat

/-- The text those bytes decode to. -/
def demoMarkersText : List Char :=
  "Apellido y Nombre LIQUIDACION".toList

/- ═══════════════ Theorems for the claims ═══════════════ -/

/-- Helper: splitting a text at a list of positions always yields one
more piece than there are positions. -/
theorem piecesFrom_length (ps : List Nat) :
    ∀ (s : List Char) (start : Nat), (piecesFrom s start ps).length = ps.length + 1 := by
  induction ps with
  | nil => intro s start; rfl
  | cons p ps ih => intro s start; simp [piecesFrom, ih]

/-- C1: the claim states that consolidate computes the weighted-average
pension percentage; on the code, consolidating the two-role example
raises AttributeError, because RawEmployeeBlock declares no
aporte_jub_ley11087 attribute and no code assigns one, so the read in
the percentage accumulation fails on the very first block. -/
theorem consolidate_pension_attribute_error_example :
    consolidate [perezBlock1, perezBlock2] true = .error .attributeError := rfl

/-- C2: the claim states the per-employee sum invariant of consolidate;
on the code, consolidate raises AttributeError on every non-empty block
list before any record can be returned, so the invariant never holds on
any input with at least one block. -/
theorem consolidate_raises_on_nonempty (bs : List RawEmployeeBlock) (flag : Bool)
    (h : bs ≠ []) : consolidate bs flag = .error .attributeError := by
  cases bs with
  | nil => exact absurd rfl h
  | cons b rest => rfl

/-- Witness for C2 at a concrete one-block list. -/
theorem consolidate_raises_on_nonempty_wit :
    consolidate [gomezBlock] false = .error .attributeError :=
  consolidate_raises_on_nonempty [gomezBlock] false (by decide)

/-- C3: the claim states that consolidate is pure and idempotent and
that the sort flag only permutes the output; on the code, a concrete
non-empty block list produces no output sequence at all for either flag
value, both calls raising AttributeError. -/
theorem consolidate_no_output_both_flags_example :
    consolidate [perezBlock1, gomezBlock, perezBlock2] true = .error .attributeError ∧
    consolidate [perezBlock1, gomezBlock, perezBlock2] false = .error .attributeError :=
  ⟨rfl, rfl⟩

/-- C4 counterexample: on the text with one id-label occurrence after a
prefix, the lookahead split yields two chunks, not one, and the text
before the first occurrence becomes the first chunk instead of being
discarded. -/
theorem split_pretext_counterexample :
    (matchPositions ("x Id. Hr:".toList)).length = 1 ∧
    (pySplitIdHr ("x Id. Hr:".toList)).length = 2 ∧
    (pySplitIdHr ("x Id. Hr:".toList)).head? = some ("x ".toList) := by
  refine ⟨by decide, by decide, by decide⟩

/-- C4 (amended): the lookahead split cuts at every position where the
id label matches, producing N plus one chunks for N occurrences; the
text before the first occurrence, possibly empty, is the first chunk. -/
theorem split_count_and_pretext (s : List Char) :
    (pySplitIdHr s).length = (matchPositions s).length + 1 ∧
    (pySplitIdHr s).head? = some (s.take ((matchPositions s).headD s.length)) := by
  constructor
  · exact piecesFrom_length (matchPositions s) s 0
  · unfold pySplitIdHr
    cases h : matchPositions s with
    | nil => simp [piecesFrom]
    | cons p ps => simp [piecesFrom, takeBetween]

/-- C5: the numeric normalizer turns the two locale-formatted examples
into their exact values, maps the empty string and a non-numeric string
to zero, and yields zero instead of an error on every input whose
cleaned form fails to parse as a float. -/
theorem parse_ar_number_spec :
    parseArNumber ("1.234.567,89".toList) = (1234567.89 : ℚ) ∧
    parseArNumber ("1626,61".toList) = (1626.61 : ℚ) ∧
    parseArNumber [] = 0 ∧
    parseArNumber ("abc".toList) = 0 ∧
    ∀ s : List Char, pyFloat? (arClean s) = none → parseArNumber s = 0 := by
  have h1 : parseArNumber ("1.234.567,89".toList) = Rat.divInt 123456789 100 := by decide
  have h2 : (Rat.divInt 123456789 100 : ℚ) = 1234567.89 := by
    rw [Rat.divInt_eq_div]
    norm_num
  have h3 : parseArNumber ("1626,61".toList) = Rat.divInt 162661 100 := by decide
  have h4 : (Rat.divInt 162661 100 : ℚ) = 1626.61 := by
    rw [Rat.divInt_eq_div]
    norm_num
  refine ⟨h1.trans h2, h3.trans h4, rfl, by decide, ?_⟩
  intro s h
  unfold parseArNumber
  rw [h]
  split <;> rfl

/-- Witness for C5 on a concrete unparseable input. -/
theorem parse_ar_number_spec_wit : parseArNumber ("zz9".toList) = 0 :=
  parse_ar_number_spec.2.2.2.2 ("zz9".toList) (by decide)

/-- C6 counterexample: a chunk whose name label is followed only by
whitespace before the terminating anchor is materialized as a block
whose employee name is the empty string, so a block with an empty name
does reach downstream stages. -/
theorem parse_block_empty_name_counterexample :
    parseBlock ("Apellido y Nombre: Centro Pago".toList) = some defaultBlock ∧
    defaultBlock.nombre = [] :=
  ⟨by decide, rfl⟩

/-- C6 (amended): a chunk with no match of the name pattern yields no
block; a chunk containing only the name label yields a block with every
other field at its default; and every materialized block carries the
trimmed, upper-cased captured name text, which may be empty when the
capture is all whitespace. -/
theorem parse_block_validity_amended :
    (∀ raw : List Char, reSearchGroups reNombre raw = none → parseBlock raw = none) ∧
    parseBlock ("Apellido y Nombre: Perez Juan Centro Pago".toList) =
      some { defaultBlock with nombre := "PEREZ JUAN".toList } ∧
    (∀ raw b, parseBlock raw = some b →
      ∃ gs, reSearchGroups reNombre raw = some gs ∧
        b.nombre = pyUpper (pyStrip (gs.headD []))) := by
  refine ⟨?_, by decide, ?_⟩
  · intro raw h
    unfold parseBlock
    rw [h]
  · intro raw b h
    unfold parseBlock at h
    cases hg : reSearchGroups reNombre raw with
    | none => rw [hg] at h; cases h
    | some gs =>
      rw [hg] at h
      injection h with h2
      exact ⟨gs, rfl, by rw [← h2]⟩

/-- Witness for C6 at concrete chunks. -/
theorem parse_block_validity_amended_wit :
    parseBlock ("hola".toList) = none ∧
    ∃ gs, reSearchGroups reNombre
        ("Apellido y Nombre: Perez Juan Centro Pago".toList) = some gs ∧
      ({ defaultBlock with nombre := "PEREZ JUAN".toList } : RawEmployeeBlock).nombre =
        pyUpper (pyStrip (gs.headD [])) :=
  ⟨parse_block_validity_amended.1 ("hola".toList) (by decide),
   parse_block_validity_amended.2.2 ("Apellido y Nombre: Perez Juan Centro Pago".toList)
     { defaultBlock with nombre := "PEREZ JUAN".toList } (by decide)⟩

/-- C7: a missing file fails with the distinct not-found error; when the
input lacks the PDF magic, or the paginated back-ends fail, load_file
returns exactly what the encoding chain produces, failing with the
unreadable-input error when no attempt is accepted; the chain tries
utf-8, latin-1 and cp1252 in this order and accepts the first decoding
that succeeds and contains the payroll markers. -/
theorem load_file_fallback_chain (pdf : List Nat → Option (List Char))
    (content : List Nat)
    (h : hasPdfMagic content = false ∨ pdfGives pdf content = none) :
    loadFile pdf none = .error .inputNotFound ∧
    loadFile pdf (some content) =
      (match readAsText content with
       | some t => if t = [] then .error .unreadableInput else .ok t
       | none => .error .unreadableInput) ∧
    (readAsText content = none ↔
      tryEnc utf8Decode? content = none ∧ tryEnc latin1Decode? content = none ∧
        tryEnc cp1252Decode? content = none) ∧
    (∀ t, readAsText content = some t →
      tryEnc utf8Decode? content = some t ∨
      (tryEnc utf8Decode? content = none ∧ tryEnc latin1Decode? content = some t) ∨
      (tryEnc utf8Decode? content = none ∧ tryEnc latin1Decode? content = none ∧
        tryEnc cp1252Decode? content = some t)) := by
  refine ⟨rfl, ?_, ?_, ?_⟩
  · have hnone : (if hasPdfMagic content then pdfGives pdf content else none) = none := by
      rcases h with h | h
      · simp [h]
      · by_cases hm : hasPdfMagic content <;> simp [hm, h]
    simp only [loadFile]
    rw [hnone]
  · cases h1 : tryEnc utf8Decode? content with
    | some t => simp [readAsText, h1]
    | none =>
      cases h2 : tryEnc latin1Decode? content with
      | some t => simp [readAsText, h1, h2]
      | none => simp [readAsText, h1, h2]
  · intro t ht
    cases h1 : tryEnc utf8Decode? content with
    | some u => left; rw [← ht]; simp [readAsText, h1]
    | none =>
      cases h2 : tryEnc latin1Decode? content with
      | some u => right; left; rw [← ht]; simp [readAsText, h1, h2]
      | none => right; right; rw [← ht]; simp [readAsText, h1, h2]

/-- Witness for C7: a plain-text ASCII payroll file decodes through the
first encoding attempt and is returned as loaded text. -/
theorem load_file_fallback_chain_wit :
    loadFile (fun _ => none) (some demoMarkersBytes) = .ok demoMarkersText := by
  have h := (load_file_fallback_chain (fun _ => none) demoMarkersBytes
    (Or.inl (by decide))).2.1
  exact h.trans (by decide)

/-- C8: for non-empty loaded text, extract_blocks fails with the
no-records error exactly when segmentation plus parsing produce no
valid block, and a successful return is the non-empty parsed block
sequence itself. -/
theorem extract_blocks_no_records_iff (text : List Char) (h : text ≠ []) :
    (extractBlocks text = .error .noRecordsFound ↔ parsedBlocks text = []) ∧
    ∀ bs, extractBlocks text = .ok bs → bs = parsedBlocks text ∧ bs ≠ [] := by
  unfold extractBlocks
  rw [if_neg h]
  by_cases hp : parsedBlocks text = []
  · rw [if_pos hp]
    exact ⟨⟨fun _ => hp, fun _ => rfl⟩, fun _ hbs => Except.noConfusion hbs⟩
  · rw [if_neg hp]
    refine ⟨⟨fun he => Except.noConfusion he, fun hpp => absurd hpp hp⟩, ?_⟩
    intro bs hbs
    injection hbs with h2
    exact ⟨h2.symm, h2 ▸ hp⟩

/-- Witness for C8 on concrete text with no employee blocks. -/
theorem extract_blocks_no_records_iff_wit :
    extractBlocks ("zzz".toList) = .error .noRecordsFound :=
  (extract_blocks_no_records_iff ("zzz".toList) (by decide)).1.mpr (by decide)

/-- C9: consolidating the empty block list returns the empty sequence,
with no error, for both values of the sort flag. -/
theorem consolidate_empty_ok :
    consolidate [] true = .ok [] ∧ consolidate [] false = .ok [] :=
  ⟨rfl, rfl⟩

/-- C10: calling extract_blocks while the loaded text is empty always
raises the no-text error instead of returning a block sequence. -/
theorem extract_blocks_empty_text_error :
    extractBlocks [] = .error .noTextLoaded := rfl

end LiquidaPro
